import Mathlib

/-!
Shallow embedding of firmware/controllers/trigger/trigger_emulator_algo.cpp
(the rusEFI trigger emulator) and proofs about its edge detection, frequency
computation, waveform reconciliation, lifecycle and dispatch logic.

Machine integers of the C source (int indices, int rpm, int versions) are
modelled as Nat or Int on the domains the program uses; float arithmetic of
the frequency path is modelled over the rationals, with the NaN sentinel
modelled as Option.none.
-/

/-- pin_state_t: a trigger channel level is one of two values, FALL (low) and
RISE (high), mirroring TriggerValue in the source. -/
inductive TriggerValue where
  | FALL : TriggerValue
  | RISE : TriggerValue
deriving DecidableEq

/-- MultiChannelStateSequence: the phase table. The C++ class is declared
outside this translation unit; the spec describes it as a cyclic table with a
phase count and a per-channel level accessor level(channel, phaseIndex), and
needEvent in the source calls getChannelState with the channel index first and
the phase index second. We model it as the phase count together with the
accessor as a total function. -/
structure MultiChannelStateSequence where
  phaseCount : Nat
  getChannelState : Nat → Nat → TriggerValue

/-- int getPreviousIndex(const int currentIndex, const int size):
returns (currentIndex + size - 1) % size. The C ints are modelled as Nat;
the emulator only ever calls this with 0 <= currentIndex < size. -/
def getPreviousIndex (currentIndex : Nat) (size : Nat) : Nat :=
  (currentIndex + size - 1) % size

/-- bool needEvent(const int currentIndex, const MultiChannelStateSequence&, int
channelIndex): true when the level of the channel at the previous phase index
differs from its level at the current phase index. -/
def needEvent (currentIndex : Nat) (mcss : MultiChannelStateSequence)
    (channelIndex : Nat) : Bool :=
  let prevIndex := getPreviousIndex currentIndex mcss.phaseCount
  let previousValue := mcss.getChannelState channelIndex prevIndex
  let currentValue := mcss.getChannelState channelIndex currentIndex
  previousValue != currentValue

/-- Claim C9: getPreviousIndex agrees with the mathematical formula
(i - 1 + n) mod n on integers, and its result always lies in [0, n), for every
size n >= 1 and every current index 0 <= i < n; the modulus n is nonzero, so no
division by zero is involved. Edge detection therefore never produces an
out-of-range phase index. -/
theorem getPreviousIndex_formula_and_range (n i : Nat) (hn : 1 ≤ n) (hi : i < n) :
    ((getPreviousIndex i n : Int) = ((i : Int) - 1 + (n : Int)) % (n : Int)) ∧
      getPreviousIndex i n < n ∧ n ≠ 0 := by
  refine ⟨?_, Nat.mod_lt _ (by omega), by omega⟩
  unfold getPreviousIndex
  rcases Nat.eq_zero_or_pos i with h0 | hpos
  · subst h0
    have h1 : (0 + n - 1) % n = n - 1 := by
      rw [Nat.zero_add, Nat.mod_eq_of_lt (by omega)]
    rw [h1]
    have h2 : ((0 : Int) - 1 + (n : Int)) % (n : Int) = (n : Int) - 1 := by
      have : (0 : Int) - 1 + (n : Int) = (n : Int) - 1 := by ring
      rw [this, Int.emod_eq_of_lt (by omega) (by omega)]
    simp only [Nat.cast_zero]
    rw [h2]
    omega
  · have h1 : i + n - 1 = (i - 1) + n := by omega
    rw [h1, Nat.add_mod_right, Nat.mod_eq_of_lt (by omega)]
    have h2 : ((i : Int) - 1 + (n : Int)) % (n : Int) = ((i : Int) - 1) % (n : Int) := by
      have h3 : (i : Int) - 1 + (n : Int) = (i : Int) - 1 + (n : Int) * 1 := by ring
      rw [h3, Int.add_mul_emod_self_left]
    rw [h2, Int.emod_eq_of_lt (by omega) (by omega)]
    omega

/-- Witness for C9 at n = 4, i = 0. -/
theorem getPreviousIndex_formula_and_range_witness :
    ((getPreviousIndex 0 4 : Int) = ((0 : Int) - 1 + (4 : Int)) % (4 : Int)) ∧
      getPreviousIndex 0 4 < 4 ∧ (4 : Nat) ≠ 0 :=
  getPreviousIndex_formula_and_range 4 0 (by decide) (by decide)

/-- Claim C8: for a table with phaseCount = 1 and current index in range (hence 0),
the previous index computed by getPreviousIndex equals the current index, and
needEvent reports no edge on any channel; the modulus is 1, never 0, so the
computation does not fault. -/
theorem needEvent_phaseCount_one (mcss : MultiChannelStateSequence) (ch i : Nat)
    (hone : mcss.phaseCount = 1) (hi : i < mcss.phaseCount) :
    getPreviousIndex i mcss.phaseCount = i ∧ needEvent i mcss ch = false := by
  have hi0 : i = 0 := by omega
  subst hi0
  constructor
  · rw [hone]; rfl
  · unfold needEvent
    rw [hone]
    simp [getPreviousIndex]

/-- Trigger levels as elements of ZMod 2 (FALL as 0, RISE as 1). -/
def TriggerValue.toZMod : TriggerValue → ZMod 2
  | TriggerValue.FALL => 0
  | TriggerValue.RISE => 1

/-- A level-inequality indicator equals the sum of the two levels mod 2. -/
theorem ite_bne_toZMod (a b : TriggerValue) :
    (((if (a != b) = true then 1 else 0 : Nat) : ZMod 2)) = a.toZMod + b.toZMod := by
  cases a <;> cases b <;> decide

/-- Summing a function over the previous-index map is the same as summing it
directly: getPreviousIndex permutes the index range. -/
theorem sum_getPreviousIndex_shift (n : Nat) (hn : 1 ≤ n) (g : Nat → ZMod 2) :
    ∑ i ∈ Finset.range n, g (getPreviousIndex i n) = ∑ i ∈ Finset.range n, g i := by
  refine Finset.sum_nbij' (fun i => getPreviousIndex i n) (fun j => (j + 1) % n)
    ?_ ?_ ?_ ?_ ?_
  · intro a ha
    exact Finset.mem_range.mpr (Nat.mod_lt _ (by omega))
  · intro a ha
    exact Finset.mem_range.mpr (Nat.mod_lt _ (by omega))
  · intro a ha
    rw [Finset.mem_range] at ha
    show ((a + n - 1) % n + 1) % n = a
    rw [Nat.mod_add_mod, show a + n - 1 + 1 = a + n from by omega,
      Nat.add_mod_right, Nat.mod_eq_of_lt ha]
  · intro a ha
    rw [Finset.mem_range] at ha
    show ((a + 1) % n + n - 1) % n = a
    rw [show (a + 1) % n + n - 1 = (a + 1) % n + (n - 1) from by omega,
      Nat.mod_add_mod, show a + 1 + (n - 1) = a + n from by omega,
      Nat.add_mod_right, Nat.mod_eq_of_lt ha]
  · intro a ha
    rfl

/-- Claim C7: over one full cycle of any phase table with phaseCount at least 1, the
number of phase indices at which needEvent detects an edge on a given channel
is even: the table is cyclic, so the level returns to its starting value after
one full cycle. -/
theorem needEvent_even_edge_count (mcss : MultiChannelStateSequence) (ch : Nat)
    (hn : 1 ≤ mcss.phaseCount) :
    Even ((Finset.range mcss.phaseCount).filter
      (fun i => needEvent i mcss ch = true)).card := by
  rw [← ZMod.eq_zero_iff_even, Finset.card_filter, Nat.cast_sum]
  have hterm : ∀ i ∈ Finset.range mcss.phaseCount,
      ((if needEvent i mcss ch = true then 1 else 0 : Nat) : ZMod 2) =
        (mcss.getChannelState ch (getPreviousIndex i mcss.phaseCount)).toZMod +
          (mcss.getChannelState ch i).toZMod := by
    intro i _
    exact ite_bne_toZMod _ _
  rw [Finset.sum_congr rfl hterm, Finset.sum_add_distrib,
    sum_getPreviousIndex_shift mcss.phaseCount hn
      (fun j => (mcss.getChannelState ch j).toZMod)]
  have hx : ∀ x : ZMod 2, x + x = 0 := by decide
  exact hx _

/-- The two-channel, four-phase example table from the design document:
channel 0 levels (F, R, R, F), channel 1 levels (F, F, R, R); any further
channel is constantly low. -/
def scenarioTable : MultiChannelStateSequence :=
  ⟨4, fun ch i =>
    if ch = 0 then (if i = 1 ∨ i = 2 then TriggerValue.RISE else TriggerValue.FALL)
    else if ch = 1 then (if i = 2 ∨ i = 3 then TriggerValue.RISE else TriggerValue.FALL)
    else TriggerValue.FALL⟩

/-- Witness for C7 on the concrete example table: channel 0 sees an even number
of edges over one cycle. -/
theorem needEvent_even_edge_count_witness :
    1 ≤ scenarioTable.phaseCount ∧
      Even ((Finset.range scenarioTable.phaseCount).filter
        (fun i => needEvent i scenarioTable 0 = true)).card :=
  ⟨by decide, needEvent_even_edge_count scenarioTable 0 (by decide)⟩

/-- A concrete one-phase table, constantly high. -/
def onePhaseTable : MultiChannelStateSequence :=
  ⟨1, fun _ _ => TriggerValue.RISE⟩

/-- The configuration flags consulted by the emulator callback:
engineConfiguration fields invertPrimaryTriggerSignal and
invertSecondaryTriggerSignal. -/
structure EngineConfig where
  invertPrimaryTriggerSignal : Bool
  invertSecondaryTriggerSignal : Bool
deriving DecidableEq

/-- One dispatched shaft-position event: a call handleShaftSignal(i, isRise,
stamp). The timestamp type efitick_t is modelled as Int. -/
structure ShaftEvent where
  channel : Nat
  isRise : Bool
  stamp : Int
deriving DecidableEq

/-- TriggerEmulatorHelper::handleEmulatorCallback: captures one timestamp
(getTimeNowNt, passed here as stamp), then loops the channel index i over
[0, PWM_PHASE_MAX_WAVE_PER_PWM); that constant is defined outside this
translation unit, so the loop bound is the parameter numChannels. For each
channel with an edge it dispatches handleShaftSignal(i, isRise, stamp), where
isRise starts as (TriggerValue::RISE == level of channel i at stateIndex) and
is xor-ed with the primary invert flag when i == 0 and with the secondary
invert flag when i == 1. In the source, the inline comment on the
getChannelState call labels the first argument as the phase index, but
positionally (compare needEvent) the first argument is the channel index i and
the second is the phase index stateIndex. The returned list records the
dispatched calls in loop order. -/
def handleEmulatorCallback (cfg : EngineConfig) (numChannels : Nat)
    (multiChannelStateSequence : MultiChannelStateSequence) (stateIndex : Nat)
    (stamp : Int) : List ShaftEvent :=
  (List.range numChannels).filterMap fun i =>
    if needEvent stateIndex multiChannelStateSequence i then
      let isRise0 := TriggerValue.RISE == multiChannelStateSequence.getChannelState i stateIndex
      let isRise1 := xor isRise0 (i == 0 && cfg.invertPrimaryTriggerSignal)
      let isRise2 := xor isRise1 (i == 1 && cfg.invertSecondaryTriggerSignal)
      some ⟨i, isRise2, stamp⟩
    else
      none

/-- Claim C5: every event dispatched by handleEmulatorCallback carries the single
timestamp captured at tick start; its direction is rising exactly when the
level of its channel at the current phase index is the high state, flipped
once when the channel is 0 and primary invert is set and once when the channel
is 1 and secondary invert is set; channels other than 0 and 1 are never
affected by the inversion flags. -/
theorem handleEmulatorCallback_direction_and_stamp (cfg : EngineConfig)
    (numChannels : Nat) (mcss : MultiChannelStateSequence) (stateIndex : Nat)
    (stamp : Int) (ev : ShaftEvent)
    (hev : ev ∈ handleEmulatorCallback cfg numChannels mcss stateIndex stamp) :
    ev.stamp = stamp ∧
      ev.isRise = xor (xor (TriggerValue.RISE == mcss.getChannelState ev.channel stateIndex)
          (ev.channel == 0 && cfg.invertPrimaryTriggerSignal))
        (ev.channel == 1 && cfg.invertSecondaryTriggerSignal) ∧
      (2 ≤ ev.channel →
        ev.isRise = (TriggerValue.RISE == mcss.getChannelState ev.channel stateIndex)) := by
  unfold handleEmulatorCallback at hev
  rw [List.mem_filterMap] at hev
  obtain ⟨i, hi, hsome⟩ := hev
  by_cases hne : needEvent stateIndex mcss i = true
  · rw [if_pos hne] at hsome
    simp only [Option.some.injEq] at hsome
    subst hsome
    refine ⟨rfl, rfl, ?_⟩
    intro h2
    dsimp only at h2 ⊢
    have h0 : (i == 0) = false := beq_eq_false_iff_ne.mpr (by omega)
    have h1 : (i == 1) = false := beq_eq_false_iff_ne.mpr (by omega)
    simp [h0, h1]
  · rw [if_neg hne] at hsome
    exact absurd hsome (by simp)

/-- A concrete dispatched event used to witness C5. -/
def sampleEvent : ShaftEvent := ⟨0, true, 7⟩

/-- A concrete configuration with both invert flags clear. -/
def sampleConfig : EngineConfig := ⟨false, false⟩

/-- Witness for C5 on the concrete example table at phase index 1. -/
theorem handleEmulatorCallback_direction_and_stamp_witness :
    sampleEvent.stamp = 7 ∧
      sampleEvent.isRise = xor (xor (TriggerValue.RISE == scenarioTable.getChannelState sampleEvent.channel 1)
          (sampleEvent.channel == 0 && sampleConfig.invertPrimaryTriggerSignal))
        (sampleEvent.channel == 1 && sampleConfig.invertSecondaryTriggerSignal) ∧
      (2 ≤ sampleEvent.channel →
        sampleEvent.isRise = (TriggerValue.RISE == scenarioTable.getChannelState sampleEvent.channel 1)) :=
  handleEmulatorCallback_direction_and_stamp sampleConfig 2 scenarioTable 1 7
    sampleEvent (by decide)

/-- Claim C10: the invert flags never add or remove a dispatched edge and never
change its timestamp: on the same table, state index and clock, two
configurations that differ only in the invert flags dispatch events for
exactly the same channels with the same timestamps, since needEvent does not
consult the flags. -/
theorem handleEmulatorCallback_invert_noninterference (cfg cfg' : EngineConfig)
    (numChannels : Nat) (mcss : MultiChannelStateSequence) (stateIndex : Nat)
    (stamp : Int) :
    (handleEmulatorCallback cfg numChannels mcss stateIndex stamp).map
        (fun ev => (ev.channel, ev.stamp)) =
      (handleEmulatorCallback cfg' numChannels mcss stateIndex stamp).map
        (fun ev => (ev.channel, ev.stamp)) := by
  unfold handleEmulatorCallback
  rw [List.map_filterMap, List.map_filterMap]
  apply List.filterMap_congr
  intro i _
  by_cases h : needEvent stateIndex mcss i = true
  · simp [h]
  · simp [h]

/-- Witness for C8: a concrete one-phase table. -/
theorem needEvent_phaseCount_one_witness :
    getPreviousIndex 0 onePhaseTable.phaseCount = 0 ∧
      needEvent 0 onePhaseTable 0 = false :=
  needEvent_phaseCount_one onePhaseTable 0 0 rfl (by decide)

/-- The PwmConfig state the reconciliation step mutates: the adopted waveform
parameters (the multi-channel state sequence the PWM plays back) and the
cached period safe.periodNt, modelled as Int with -1 the re-initialization
sentinel written by the source. -/
structure PwmConfig where
  multiChannelStateSequence : MultiChannelStateSequence
  periodNt : Int

/-- Modelled from the spec: copyPwmParameters is defined outside src/; per the
design document the reconciliation event adopts the new waveform by copying
its parameters into the PWM state. -/
def copyPwmParameters (state : PwmConfig) (wave : MultiChannelStateSequence) :
    PwmConfig :=
  ⟨wave, state.periodNt⟩

/-- engine->triggerCentral.triggerShape as consulted here: the current
waveform and its version counter. -/
structure TriggerWaveform where
  version : Int
  wave : MultiChannelStateSequence

/-- updateTriggerWaveformIfNeeded: given the cached version atTriggerVersion
and the PWM state, when the cached version is behind the shape version it
adopts the shape version, copies the waveform parameters into the state and
writes the sentinel -1 into safe.periodNt, which causes loop
re-initialization; otherwise it changes nothing. Returns the new cached
version together with the new state. -/
def updateTriggerWaveformIfNeeded (shape : TriggerWaveform)
    (atTriggerVersion : Int) (state : PwmConfig) : Int × PwmConfig :=
  if atTriggerVersion < shape.version then
    (shape.version,
      ⟨(copyPwmParameters state shape.wave).multiChannelStateSequence, -1⟩)
  else
    (atTriggerVersion, state)

/-- Claim C1: when the cached trigger-shape version is behind the table
version, the per-tick reconciliation adopts the new waveform into the PWM
state, updates the cached version to the table version, and sets the cached
period to the re-initialization sentinel -1; when the cached version is not
behind, the cached version and the state are left unchanged. -/
theorem updateTriggerWaveformIfNeeded_spec (shape : TriggerWaveform)
    (atTriggerVersion : Int) (state : PwmConfig) :
    (atTriggerVersion < shape.version →
        updateTriggerWaveformIfNeeded shape atTriggerVersion state =
          (shape.version, ⟨shape.wave, -1⟩)) ∧
      (¬ atTriggerVersion < shape.version →
        updateTriggerWaveformIfNeeded shape atTriggerVersion state =
          (atTriggerVersion, state)) := by
  constructor
  · intro h
    unfold updateTriggerWaveformIfNeeded
    rw [if_pos h]
    rfl
  · intro h
    unfold updateTriggerWaveformIfNeeded
    rw [if_neg h]

/-- A concrete trigger shape at version 2. -/
def freshShape : TriggerWaveform := ⟨2, scenarioTable⟩

/-- A concrete PWM state holding the one-phase table and period 5. -/
def stalePwm : PwmConfig := ⟨onePhaseTable, 5⟩

/-- Witness for C1: reconciliation from cached version 1 adopts shape version
2; reconciliation from cached version 2 changes nothing. -/
theorem updateTriggerWaveformIfNeeded_spec_witness :
    updateTriggerWaveformIfNeeded freshShape 1 stalePwm =
        (freshShape.version, ⟨freshShape.wave, -1⟩) ∧
      updateTriggerWaveformIfNeeded freshShape 2 stalePwm = (2, stalePwm) :=
  ⟨(updateTriggerWaveformIfNeeded_spec freshShape 1 stalePwm).1 (by decide),
    (updateTriggerWaveformIfNeeded_spec freshShape 2 stalePwm).2 (by decide)⟩

/-- operation_mode_e: engine rotation operation modes. The enum is declared
outside this translation unit; the members below are the ones the multiplier
distinguishes, together with the unmapped members OM_NONE and TWO_STROKE. -/
inductive operation_mode_e where
  | OM_NONE
  | FOUR_STROKE_CRANK_SENSOR
  | FOUR_STROKE_CAM_SENSOR
  | FOUR_STROKE_SYMMETRICAL_CRANK_SENSOR
  | FOUR_STROKE_THREE_TIMES_CRANK_SENSOR
  | FOUR_STROKE_TWELVE_TIMES_CRANK_SENSOR
  | TWO_STROKE
deriving DecidableEq

/-- Modelled from the spec: the symmetrical-wheel divider constants are
defined outside src/; the spec describes the multiplier of a symmetrical
variant as the wheel constant divided by 2. The rusEFI values are 4, 6, 24. -/
def SYMMETRICAL_CRANK_SENSOR_DIVIDER : ℚ := 4

/-- The three-times symmetrical wheel constant. -/
def SYMMETRICAL_THREE_TIMES_CRANK_SENSOR_DIVIDER : ℚ := 6

/-- The twelve-times symmetrical wheel constant. -/
def SYMMETRICAL_TWELVE_TIMES_CRANK_SENSOR_DIVIDER : ℚ := 24

/-- getRpmMultiplier: the mode comparison chain of the source, with the
explicit default 1 for any mode not matched. Float arithmetic is modelled
over the rationals. -/
def getRpmMultiplier : operation_mode_e → ℚ
  | operation_mode_e.FOUR_STROKE_THREE_TIMES_CRANK_SENSOR =>
    SYMMETRICAL_THREE_TIMES_CRANK_SENSOR_DIVIDER / 2
  | operation_mode_e.FOUR_STROKE_SYMMETRICAL_CRANK_SENSOR =>
    SYMMETRICAL_CRANK_SENSOR_DIVIDER / 2
  | operation_mode_e.FOUR_STROKE_TWELVE_TIMES_CRANK_SENSOR =>
    SYMMETRICAL_TWELVE_TIMES_CRANK_SENSOR_DIVIDER / 2
  | operation_mode_e.FOUR_STROKE_CAM_SENSOR => 0.5
  | operation_mode_e.FOUR_STROKE_CRANK_SENSOR => 1
  | _ => 1

/-- setTriggerEmulatorRPM: stores the target rpm and sets the scheduler
frequency: NaN (modelled as Option.none) when rpm == 0, otherwise
rpm * getRpmMultiplier(mode) / 60 converted from per-minute to per-second.
Returns the frequency passed to triggerEmulatorSignal.setFrequency. -/
def setTriggerEmulatorRPM (rpm : Int) (mode : operation_mode_e) : Option ℚ :=
  if rpm = 0 then none
  else some ((rpm : ℚ) * getRpmMultiplier mode / 60)

/-- Claim C2: the frequency set by setTriggerEmulatorRPM is the undefined
sentinel for rpm 0 and rpm * multiplier / 60 otherwise, where the multiplier
is 1 for the plain crank sensor mode, one half for the cam sensor mode, the
wheel constant divided by 2 for the symmetrical three-times and twelve-times
variants, and 1 for the unmapped modes; rpm 6000 at multiplier 1 yields 100
and rpm 3000 at multiplier 1 yields 50. -/
theorem setTriggerEmulatorRPM_frequency_spec :
    (∀ (rpm : Int) (mode : operation_mode_e),
        setTriggerEmulatorRPM rpm mode =
          if rpm = 0 then none
          else some ((rpm : ℚ) * getRpmMultiplier mode / 60)) ∧
      getRpmMultiplier operation_mode_e.FOUR_STROKE_CRANK_SENSOR = 1 ∧
      getRpmMultiplier operation_mode_e.FOUR_STROKE_CAM_SENSOR = 1 / 2 ∧
      getRpmMultiplier operation_mode_e.FOUR_STROKE_THREE_TIMES_CRANK_SENSOR =
        SYMMETRICAL_THREE_TIMES_CRANK_SENSOR_DIVIDER / 2 ∧
      getRpmMultiplier operation_mode_e.FOUR_STROKE_TWELVE_TIMES_CRANK_SENSOR =
        SYMMETRICAL_TWELVE_TIMES_CRANK_SENSOR_DIVIDER / 2 ∧
      getRpmMultiplier operation_mode_e.OM_NONE = 1 ∧
      getRpmMultiplier operation_mode_e.TWO_STROKE = 1 ∧
      setTriggerEmulatorRPM 6000 operation_mode_e.FOUR_STROKE_CRANK_SENSOR =
        some 100 ∧
      setTriggerEmulatorRPM 3000 operation_mode_e.FOUR_STROKE_CRANK_SENSOR =
        some 50 := by
  refine ⟨fun rpm mode => rfl, rfl, ?_, rfl, rfl, rfl, rfl, ?_, ?_⟩ <;>
    norm_num [getRpmMultiplier, setTriggerEmulatorRPM]

/-- Counterexample for C4: a negative target rpm is not treated like rpm 0:
setTriggerEmulatorRPM(-60) in plain crank mode produces the defined frequency
-1, which is negative, not the undefined sentinel. -/
theorem setTriggerEmulatorRPM_negative_counterexample :
    setTriggerEmulatorRPM (-60) operation_mode_e.FOUR_STROKE_CRANK_SENSOR =
        some (-1) ∧ ((-1 : ℚ) < 0) := by
  norm_num [setTriggerEmulatorRPM, getRpmMultiplier]

/-- The multiplier is non-negative for every operation mode. -/
theorem getRpmMultiplier_nonneg (mode : operation_mode_e) :
    0 ≤ getRpmMultiplier mode := by
  cases mode <;>
    norm_num [getRpmMultiplier, SYMMETRICAL_CRANK_SENSOR_DIVIDER,
      SYMMETRICAL_THREE_TIMES_CRANK_SENSOR_DIVIDER,
      SYMMETRICAL_TWELVE_TIMES_CRANK_SENSOR_DIVIDER]

/-- Claim C4 (amended): the frequency set by setTriggerEmulatorRPM is the
undefined sentinel exactly when rpm is 0; for nonzero rpm it is the defined
value rpm * multiplier / 60, which is non-negative whenever rpm is positive.
A negative rpm yields a negative defined frequency, not the sentinel. -/
theorem setTriggerEmulatorRPM_sign (rpm : Int) (mode : operation_mode_e) :
    (rpm = 0 → setTriggerEmulatorRPM rpm mode = none) ∧
      (rpm ≠ 0 → setTriggerEmulatorRPM rpm mode =
        some ((rpm : ℚ) * getRpmMultiplier mode / 60)) ∧
      (0 < rpm → 0 ≤ (rpm : ℚ) * getRpmMultiplier mode / 60) := by
  refine ⟨?_, ?_, ?_⟩
  · intro h
    unfold setTriggerEmulatorRPM
    rw [if_pos h]
  · intro h
    unfold setTriggerEmulatorRPM
    rw [if_neg h]
  · intro h
    have hr : (0 : ℚ) ≤ (rpm : ℚ) := by exact_mod_cast le_of_lt h
    exact div_nonneg (mul_nonneg hr (getRpmMultiplier_nonneg mode)) (by norm_num)

/-- Witness for C4 (amended) at rpm 0 and rpm 6000 in plain crank mode. -/
theorem setTriggerEmulatorRPM_sign_witness :
    setTriggerEmulatorRPM 0 operation_mode_e.FOUR_STROKE_CRANK_SENSOR = none ∧
      setTriggerEmulatorRPM 6000 operation_mode_e.FOUR_STROKE_CRANK_SENSOR =
        some ((6000 : ℚ) *
          getRpmMultiplier operation_mode_e.FOUR_STROKE_CRANK_SENSOR / 60) ∧
      0 ≤ (6000 : ℚ) *
        getRpmMultiplier operation_mode_e.FOUR_STROKE_CRANK_SENSOR / 60 :=
  ⟨(setTriggerEmulatorRPM_sign 0 operation_mode_e.FOUR_STROKE_CRANK_SENSOR).1
      rfl,
    (setTriggerEmulatorRPM_sign 6000
        operation_mode_e.FOUR_STROKE_CRANK_SENSOR).2.1 (by decide),
    (setTriggerEmulatorRPM_sign 6000
        operation_mode_e.FOUR_STROKE_CRANK_SENSOR).2.2 (by decide)⟩

/-- The mutable lifecycle flags of the emulator: the static
hasInitTriggerEmulator guard, triggerCentral.directSelfStimulation, the global
configuration version counter, and whether rpmCalculator.Register was
called. -/
structure EmulatorLifecycle where
  hasInitTriggerEmulator : Bool
  directSelfStimulation : Bool
  globalConfigurationVersion : Nat
  rpmCalculatorRegistered : Bool
deriving DecidableEq

/-- The timing side effects of one start call: whether it applied the
frequency (a setTriggerEmulatorRPM call) and whether it initialized the PWM
scheduler (a weComplexInit call). -/
structure StartTimingEffects where
  appliedFrequency : Bool
  schedulerInited : Bool
deriving DecidableEq

/-- startSimulatedTriggerSignal: when hasInitTriggerEmulator is already set it
returns at once (no need to start more than once); otherwise it applies the
configured frequency, initializes the PWM scheduler and sets the guard.
Returns the new flags and the timing effects performed. -/
def startSimulatedTriggerSignal (st : EmulatorLifecycle) :
    EmulatorLifecycle × StartTimingEffects :=
  if st.hasInitTriggerEmulator then
    (st, ⟨false, false⟩)
  else
    (⟨true, st.directSelfStimulation, st.globalConfigurationVersion,
      st.rpmCalculatorRegistered⟩, ⟨true, true⟩)

/-- enableTriggerStimulator (self-stimulation): runs the guarded start, sets
directSelfStimulation, registers the rpm calculator, and bumps the global
configuration version when requested. -/
def enableTriggerStimulator (incGlobalConfiguration : Bool)
    (st : EmulatorLifecycle) : EmulatorLifecycle × StartTimingEffects :=
  let r := startSimulatedTriggerSignal st
  (⟨r.1.hasInitTriggerEmulator, true,
    r.1.globalConfigurationVersion + (if incGlobalConfiguration then 1 else 0),
    true⟩, r.2)

/-- enableExternalTriggerStimulator: runs the guarded start, clears
directSelfStimulation, and always bumps the global configuration version. -/
def enableExternalTriggerStimulator (st : EmulatorLifecycle) :
    EmulatorLifecycle × StartTimingEffects :=
  let r := startSimulatedTriggerSignal st
  (⟨r.1.hasInitTriggerEmulator, false, r.1.globalConfigurationVersion + 1,
    r.1.rpmCalculatorRegistered⟩, r.2)

/-- A lifecycle state already initialized and running in self-stimulation. -/
def runningSelf : EmulatorLifecycle := ⟨true, true, 0, true⟩

/-- Counterexample for C3: with the emulator already initialized and running
in self-stimulation, enabling the other (external) mode performs no timing
restart at all: the guarded start neither re-applies the frequency nor
re-initializes the scheduler, because the guard sees the emulator as already
initialized and returns at once. -/
theorem enableExternalTriggerStimulator_no_restart_counterexample :
    (enableExternalTriggerStimulator runningSelf).2 = ⟨false, false⟩ ∧
      (enableExternalTriggerStimulator runningSelf).1.directSelfStimulation =
        false := by
  decide

/-- Claim C3 (amended): the initialization guard is keyed on being already
initialized rather than on being already in that exact mode, so calling
enable for the other stimulation mode while the emulator is already
initialized does not restart timing: neither the frequency application nor
the scheduler initialization is re-run, in either switching direction; the
call only switches the run-mode flag (and bumps the configuration version
for the external direction). -/
theorem enable_other_mode_skips_timing_restart (st : EmulatorLifecycle)
    (h : st.hasInitTriggerEmulator = true) :
    (enableExternalTriggerStimulator st).2 = ⟨false, false⟩ ∧
      (enableExternalTriggerStimulator st).1.directSelfStimulation = false ∧
      (enableExternalTriggerStimulator st).1.globalConfigurationVersion =
        st.globalConfigurationVersion + 1 ∧
      (enableTriggerStimulator true st).2 = ⟨false, false⟩ ∧
      (enableTriggerStimulator true st).1.directSelfStimulation = true := by
  simp [enableExternalTriggerStimulator, enableTriggerStimulator,
    startSimulatedTriggerSignal, h]

/-- Witness for C3 (amended) at the concrete running-in-self state. -/
theorem enable_other_mode_skips_timing_restart_witness :
    (enableExternalTriggerStimulator runningSelf).2 = ⟨false, false⟩ ∧
      (enableExternalTriggerStimulator runningSelf).1.directSelfStimulation =
        false ∧
      (enableExternalTriggerStimulator runningSelf).1.globalConfigurationVersion =
        runningSelf.globalConfigurationVersion + 1 ∧
      (enableTriggerStimulator true runningSelf).2 = ⟨false, false⟩ ∧
      (enableTriggerStimulator true runningSelf).1.directSelfStimulation =
        true :=
  enable_other_mode_skips_timing_restart runningSelf rfl

/-- What one PWM tick callback does with the computed phase index: forward the
edge events synchronously to the shaft-position handler (self-stimulation),
apply the physical pin state, or perform no output at all. -/
inductive PinDispatch where
  | shaft (events : List ShaftEvent)
  | applyPins (stateIndex : Nat)
  | noOutput
deriving DecidableEq

/-- emulatorApplyPinState (the pwm_gen_callback): when
triggerCentral.directSelfStimulation is set, the callback invokes the input
signal handlers directly through helper.handleEmulatorCallback on the state
sequence of the PWM state; otherwise the physical pin state is applied
(applyPinState) only when hasStimPins is set, and nothing is written when no
stimulation pin is bound. -/
def emulatorApplyPinState (directSelfStimulation hasStimPins : Bool)
    (cfg : EngineConfig) (numChannels : Nat) (state : PwmConfig)
    (stateIndex : Nat) (stamp : Int) : PinDispatch :=
  if directSelfStimulation then
    PinDispatch.shaft (handleEmulatorCallback cfg numChannels
      state.multiChannelStateSequence stateIndex stamp)
  else if hasStimPins then
    PinDispatch.applyPins stateIndex
  else
    PinDispatch.noOutput

/-- Modelled from the spec: brain_pin_e and isBrainPinValid are defined
outside src/; the spec describes a channel as carrying an optional hardware
pin binding, so a pin is modelled as Option Nat and validity as being
bound. -/
def isBrainPinValid (pin : Option Nat) : Bool :=
  pin.isSome

/-- startTriggerEmulatorPins: clears hasStimPins, then scans the configured
triggerSimulatorPins and sets hasStimPins once some scanned pin is valid;
returns the resulting hasStimPins flag. -/
def startTriggerEmulatorPins (pins : List (Option Nat)) : Bool :=
  pins.foldl (fun acc pin => acc || isBrainPinValid pin) false

/-- Scanning the pins computes exactly: some pin is valid. -/
theorem startTriggerEmulatorPins_any (pins : List (Option Nat)) :
    startTriggerEmulatorPins pins = pins.any (fun pin => isBrainPinValid pin) := by
  have hfold : ∀ (l : List (Option Nat)) (b : Bool),
      l.foldl (fun acc pin => acc || isBrainPinValid pin) b =
        (b || l.any (fun pin => isBrainPinValid pin)) := by
    intro l
    induction l with
    | nil => intro b; simp
    | cons hd tl ih =>
      intro b
      simp only [List.foldl_cons, List.any_cons, ih, Bool.or_assoc]
  simpa using hfold pins false

/-- Claim C6: the per-tick dispatch routes by run mode: with direct
self-stimulation active the edges are forwarded synchronously to the
shaft-position-input handler, whatever hasStimPins is; otherwise the physical
pin state is applied only when hasStimPins is set, and with no bound pin the
tick performs no physical write; hasStimPins as computed by
startTriggerEmulatorPins is set exactly when some configured stimulation pin
is valid. -/
theorem emulatorApplyPinState_routing (hasStimPins : Bool) (cfg : EngineConfig)
    (numChannels : Nat) (state : PwmConfig) (stateIndex : Nat) (stamp : Int)
    (pins : List (Option Nat)) :
    emulatorApplyPinState true hasStimPins cfg numChannels state stateIndex
        stamp =
      PinDispatch.shaft (handleEmulatorCallback cfg numChannels
        state.multiChannelStateSequence stateIndex stamp) ∧
      emulatorApplyPinState false true cfg numChannels state stateIndex stamp =
        PinDispatch.applyPins stateIndex ∧
      emulatorApplyPinState false false cfg numChannels state stateIndex stamp =
        PinDispatch.noOutput ∧
      startTriggerEmulatorPins pins =
        pins.any (fun pin => isBrainPinValid pin) :=
  ⟨rfl, rfl, rfl, startTriggerEmulatorPins_any pins⟩
